import Mathlib

/-!
Shallow embedding of the core pipeline of
`src/telegram_photo_text_scrapping.py`: the Message Fetcher
(`fetch_images`), the OCR step (`perform_ocr`), the Persistence Merger
(`append_to_excel`), and the per-message processing loop of `main`.

Modelling decisions, each tied to source lines:
- A Telegram message (lines 84-88, 189-211) is consumed through its
  `id` (int), `date` (a datetime; only the six fields used by
  `strftime` on line 207 are modelled), `photo` truthiness (line 85),
  and the outcome of `download_media` (line 191), which either raises
  an exception or returns a value whose falsiness (None or empty
  bytes, line 193) is modelled as the empty byte list.
- `client.iter_messages` (line 84) is an asynchronous stream that at
  each step yields a message, raises `FloodWaitError` (carrying its
  `seconds`), or raises some other exception; it is modelled as a
  `List FetchEvent` scanned left to right (most recent message
  first, as Telethon iterates).
- The EasyOCR reader together with the PIL normalisation of
  `perform_ocr` (lines 108-113) is modelled as two fallible
  functions: `normalize` (Image.open + convert RGB + re-encode JPEG,
  lines 108-112) and `readtext` (line 113); exceptions are `String`
  error values.
- The filesystem at the single output path (lines 127-133) is an
  `Option Dataset`: `none` means `os.path.exists` is false. A
  `Dataset` records the column header list and the row list, as
  pandas writes them; `pd.concat` (line 132) keeps existing rows
  first and takes the ordered union of the column sets.
- `sys.exit(1)` inside `fetch_images` (lines 91, 94) aborts the whole
  run; it is modelled by `FetchResult` carrying the fault.
-/

/-- The six datetime fields consumed by `strftime("%Y-%m-%d %H:%M:%S")`
on line 207 of the source. -/
structure DT where
  year : Nat
  month : Nat
  day : Nat
  hour : Nat
  minute : Nat
  second : Nat
deriving DecidableEq, Repr

/-- A chronological key for a datetime, used to state
reverse-chronological ordering: later datetimes have larger keys. -/
def DT.key (d : DT) : Nat :=
  ((((d.year * 13 + d.month) * 32 + d.day) * 24 + d.hour) * 60 + d.minute) * 60 + d.second

/-- Outcome of `message.download_media(bytes)` (line 191): an exception,
or a returned value. A falsy return (None or empty bytes, line 193) is
modelled as `bytes []`. -/
inductive DownloadResult where
  | fault : String → DownloadResult
  | bytes : List Nat → DownloadResult
deriving DecidableEq, Repr

/-- The attributes of a Telethon message consumed by the pipeline:
`id`, `date`, the truthiness of `photo` (line 85), and the outcome of
downloading its media (line 191). -/
structure Message where
  id : Int
  date : DT
  photo : Bool
  download : DownloadResult
deriving DecidableEq, Repr

/-- One step of the `iter_messages` stream (line 84): a yielded
message, a raised `FloodWaitError` with its `seconds`, or any other
exception. -/
inductive FetchEvent where
  | msg : Message → FetchEvent
  | floodWait : Nat → FetchEvent
  | err : String → FetchEvent
deriving DecidableEq, Repr

/-- Result of `fetch_images`: the collected messages, or an abort
(`sys.exit(1)`) from the `FloodWaitError` handler (lines 89-91,
keeping `e.seconds`) or from the generic handler (lines 92-94). -/
inductive FetchResult where
  | ok : List Message → FetchResult
  | rateLimited : Nat → FetchResult
  | failed : String → FetchResult
deriving DecidableEq, Repr

/-- The loop body of `fetch_images` (lines 84-88): scan the stream,
append each message whose `photo` is truthy, and break as soon as
`len(images) >= limit`; a raised error aborts with the corresponding
fault. -/
def fetchGo (limit : Int) : List FetchEvent → List Message → FetchResult
  | [], images => FetchResult.ok images
  | FetchEvent.msg m :: rest, images =>
      if m.photo then
        if limit ≤ (images.length : Int) + 1 then FetchResult.ok (images ++ [m])
        else fetchGo limit rest (images ++ [m])
      else fetchGo limit rest images
  | FetchEvent.floodWait s :: _, _ => FetchResult.rateLimited s
  | FetchEvent.err e :: _, _ => FetchResult.failed e

/-- `fetch_images` (lines 71-95): starts from an empty `images` list
and runs the scanning loop over the stream. -/
def fetch_images (stream : List FetchEvent) (limit : Int) : FetchResult :=
  fetchGo limit stream []

/-- The OCR engine plus PIL normalisation, abstracted: `normalize`
models `Image.open(BytesIO(b)).convert("RGB")` re-encoded as JPEG
(lines 108-112), `readtext` models
`reader.readtext(temp_bytes, detail=0, paragraph=True)` (line 113).
Either may raise, modelled as `Except.error`. -/
structure Reader where
  normalize : List Nat → Except String (List Nat)
  readtext : List Nat → Except String (List String)

/-- The body of the `try` block of `perform_ocr` (lines 108-114):
normalise the bytes, run `readtext`, and join the fragments with a
single blank space. -/
def ocrBody (r : Reader) (image_bytes : List Nat) : Except String String :=
  match r.normalize image_bytes with
  | Except.error e => Except.error e
  | Except.ok temp =>
      match r.readtext temp with
      | Except.error e => Except.error e
      | Except.ok result => Except.ok (String.intercalate " " result)

/-- `perform_ocr` (lines 98-117): any exception inside the body is
caught and mapped to the empty string (lines 115-117). -/
def perform_ocr (r : Reader) (image_bytes : List Nat) : String :=
  match ocrBody r image_bytes with
  | Except.ok s => s
  | Except.error _ => ""

/-- One row of `data_to_append` (lines 204-211), with the four dict
keys as fields. -/
structure Row where
  messageId : Int
  date : String
  imageLink : String
  extractedText : String
deriving DecidableEq, Repr

/-- The column header produced by `pd.DataFrame` from the dicts of
lines 204-211: the dict keys in insertion order. -/
def rowColumns : List String :=
  ["Message ID", "Date", "Image Link", "Extracted Text"]

/-- The columns of `pd.DataFrame(data)` (line 127): the shared keys of
the row dicts, or no columns at all when `data` is empty. -/
def dfColumns (data : List Row) : List String :=
  if data.isEmpty then [] else rowColumns

/-- The on-disk tabular file as pandas reads and writes it: a column
header and an ordered row list. -/
structure Dataset where
  columns : List String
  rows : List Row
deriving DecidableEq, Repr

/-- Ordered union of two column lists, as `pd.concat` (line 132)
computes the columns of the combined frame. -/
def unionCols (a b : List String) : List String :=
  a ++ b.filter (fun c => !(a.contains c))

/-- `append_to_excel` (lines 119-133) acting on the modelled
filesystem: if no file exists, write `pd.DataFrame(data)`; otherwise
read the existing frame, `pd.concat` the new rows after it
(`ignore_index=True`), and overwrite. -/
def append_to_excel (fs : Option Dataset) (data : List Row) : Option Dataset :=
  match fs with
  | none => some { columns := dfColumns data, rows := data }
  | some existing =>
      some { columns := unionCols existing.columns (dfColumns data),
             rows := existing.rows ++ data }

/-- Zero-pad a decimal rendering of `n` to width `w`, as the strftime
directives do. -/
def pad (w n : Nat) : String :=
  String.mk (List.replicate (w - (toString n).length) '0') ++ toString n

/-- `message.date.strftime("%Y-%m-%d %H:%M:%S")` (line 207). -/
def strftimeYmdHms (d : DT) : String :=
  pad 4 d.year ++ "-" ++ pad 2 d.month ++ "-" ++ pad 2 d.day ++ " " ++
    pad 2 d.hour ++ ":" ++ pad 2 d.minute ++ ":" ++ pad 2 d.second

/-- The link derivation of lines 199-202: when the group entity has a
truthy `username`, compose the public link from it and the message id;
otherwise the empty string. `none` models a missing or None attribute
and `some ""` an empty one, both falsy. -/
def messageLink (username : Option String) (id : Int) : String :=
  match username with
  | some u => if u.isEmpty then "" else "https://t.me/" ++ u ++ "/" ++ toString id
  | none => ""

/-- The body of the per-message loop of `main` (lines 189-215) for one
message: a download exception is caught by the outer handler and the
message skipped (lines 213-215); a falsy download skips it
(lines 193-195); otherwise OCR runs and a row dict is appended
(lines 197-211). -/
def buildRow (username : Option String) (r : Reader) (m : Message) : Option Row :=
  match m.download with
  | DownloadResult.fault _ => none
  | DownloadResult.bytes b =>
      if b.isEmpty then none
      else
        some { messageId := m.id,
               date := strftimeYmdHms m.date,
               imageLink := messageLink username m.id,
               extractedText := perform_ocr r b }

/-- The whole per-message loop of `main` (lines 189-215): each message
contributes its row, if any, to `data_to_append` in order. -/
def processMessages (username : Option String) (r : Reader) : List Message → List Row
  | [] => []
  | m :: rest =>
      match buildRow username r m with
      | none => processMessages username r rest
      | some row => row :: processMessages username r rest

/-- The run-aborting faults of the spec taxonomy, as `main` surfaces
them from `fetch_images`. -/
inductive Fault where
  | rateLimited : Nat → Fault
  | sourceUnavailable : String → Fault
deriving DecidableEq, Repr

/-- How a run of `main` ends: aborted inside `fetch_images`
(`sys.exit(1)`, lines 91 and 94), exited early because no images were
found (lines 177-180), or completed with the final row batch
(lines 217-222). -/
inductive RunOutcome where
  | fetchAborted : Fault → RunOutcome
  | noImages : RunOutcome
  | completed : List Row → RunOutcome
deriving DecidableEq, Repr

/-- The core pipeline of `main` (lines 175-222): fetch, process each
message, and append to the Excel file only when `data_to_append` is
nonempty (line 218). Returns the final filesystem state and the run
outcome. -/
def mainRun (stream : List FetchEvent) (limit : Int) (username : Option String)
    (r : Reader) (fs : Option Dataset) : Option Dataset × RunOutcome :=
  match fetch_images stream limit with
  | FetchResult.rateLimited s => (fs, RunOutcome.fetchAborted (Fault.rateLimited s))
  | FetchResult.failed e => (fs, RunOutcome.fetchAborted (Fault.sourceUnavailable e))
  | FetchResult.ok msgs =>
      if msgs.isEmpty then (fs, RunOutcome.noImages)
      else
        let rows := processMessages username r msgs
        if rows.isEmpty then (fs, RunOutcome.completed rows)
        else (append_to_excel fs rows, RunOutcome.completed rows)

/-! Sample data used by the witness theorems. -/

/-- A reader whose normalisation always fails, modelling undecodable
image bytes. -/
def rdrFail : Reader :=
  { normalize := fun _ => Except.error "cannot identify image file",
    readtext := fun _ => Except.ok [] }

/-- A reader that accepts the bytes unchanged and recognises two text
fragments. -/
def rdrOk : Reader :=
  { normalize := fun b => Except.ok b,
    readtext := fun _ => Except.ok ["hello", "world"] }

/-- A sample datetime. -/
def dt1 : DT := ⟨2024, 5, 3, 10, 20, 30⟩

/-- A sample datetime strictly earlier than `dt1`. -/
def dt2 : DT := ⟨2024, 5, 3, 9, 0, 0⟩

/-- A sample datetime strictly earlier than `dt2`. -/
def dt3 : DT := ⟨2024, 5, 2, 23, 59, 59⟩

/-- A photo message whose download succeeds. -/
def msg1 : Message :=
  { id := 12, date := dt1, photo := true, download := DownloadResult.bytes [1, 2] }

/-- An older photo message whose download succeeds. -/
def msg2 : Message :=
  { id := 11, date := dt2, photo := true, download := DownloadResult.bytes [3] }

/-- The oldest sample photo message. -/
def msg3 : Message :=
  { id := 10, date := dt3, photo := true, download := DownloadResult.bytes [4] }

/-- A message without a photo payload. -/
def msgNoPhoto : Message :=
  { id := 13, date := dt1, photo := false, download := DownloadResult.bytes [9] }

/-- A photo message whose media download raises an exception. -/
def msgBadDl : Message :=
  { id := 7, date := dt2, photo := true, download := DownloadResult.fault "network" }

/-! Helper lemmas. -/

/-- The processing loop is exactly a `filterMap` over `buildRow`. -/
theorem processMessages_eq_filterMap (u : Option String) (r : Reader) (ms : List Message) :
    processMessages u r ms = ms.filterMap (buildRow u r) := by
  induction ms with
  | nil => rfl
  | cons m rest ih =>
      cases h : buildRow u r m with
      | none => simp [processMessages, List.filterMap_cons, h, ih]
      | some row => simp [processMessages, List.filterMap_cons, h, ih]

/-- Scanning a block of yielded messages whose qualifying count keeps
the collection strictly below the limit never breaks: the loop carries
the filtered messages into its accumulator and continues with the rest
of the stream. -/
theorem fetchGo_msgs_append (L : Int) (msgs : List Message) :
    ∀ (evs : List FetchEvent) (acc : List Message),
      (acc.length : Int) + ((msgs.filter (fun m => m.photo)).length : Int) < L →
      fetchGo L (msgs.map FetchEvent.msg ++ evs) acc =
        fetchGo L evs (acc ++ msgs.filter (fun m => m.photo)) := by
  induction msgs with
  | nil => intro evs acc _; simp
  | cons m rest ih =>
      intro evs acc h
      cases hm : m.photo with
      | false =>
          have hfil : (m :: rest).filter (fun x => x.photo) =
              rest.filter (fun x => x.photo) := by
            simp [List.filter_cons, hm]
          rw [hfil] at h ⊢
          simpa [fetchGo, hm] using ih evs acc h
      | true =>
          have hfil : (m :: rest).filter (fun x => x.photo) =
              m :: rest.filter (fun x => x.photo) := by
            simp [List.filter_cons, hm]
          rw [hfil] at h ⊢
          have hlen : ¬ (L ≤ (acc.length : Int) + 1) := by
            simp only [List.length_cons] at h
            push_cast at h ⊢
            omega
          have h2 : ((acc ++ [m]).length : Int) +
              ((rest.filter (fun x => x.photo)).length : Int) < L := by
            simp only [List.length_cons, List.length_append, List.length_nil] at h ⊢
            push_cast at h ⊢
            omega
          simp only [List.map_cons, List.cons_append]
          rw [show fetchGo L (FetchEvent.msg m :: (rest.map FetchEvent.msg ++ evs)) acc =
              fetchGo L (rest.map FetchEvent.msg ++ evs) (acc ++ [m]) from by
            simp [fetchGo, hm, hlen]]
          rw [ih evs (acc ++ [m]) h2]
          simp

/-- When the qualifying messages in the stream reach the limit, the
loop breaks exactly when the collection reaches the limit, returning
the accumulator extended by the next `limit - acc.length` qualifying
messages. -/
theorem fetchGo_pure_reach (L : Int) (msgs : List Message) :
    ∀ acc : List Message, (acc.length : Int) < L →
      L ≤ (acc.length : Int) + ((msgs.filter (fun m => m.photo)).length : Int) →
      fetchGo L (msgs.map FetchEvent.msg) acc =
        FetchResult.ok
          (acc ++ (msgs.filter (fun m => m.photo)).take (L - acc.length).toNat) := by
  induction msgs with
  | nil =>
      intro acc hacc hge
      simp only [List.filter_nil, List.length_nil] at hge
      push_cast at hge
      omega
  | cons m rest ih =>
      intro acc hacc hge
      cases hm : m.photo with
      | false =>
          have hfil : (m :: rest).filter (fun x => x.photo) =
              rest.filter (fun x => x.photo) := by
            simp [List.filter_cons, hm]
          rw [hfil] at hge ⊢
          simpa [fetchGo, hm] using ih acc hacc hge
      | true =>
          have hfil : (m :: rest).filter (fun x => x.photo) =
              m :: rest.filter (fun x => x.photo) := by
            simp [List.filter_cons, hm]
          rw [hfil] at hge ⊢
          by_cases hbreak : L ≤ (acc.length : Int) + 1
          · have h1 : (L - (acc.length : Int)).toNat = 1 := by omega
            rw [h1]
            simp [fetchGo, hm, hbreak]
          · have hacc2 : (((acc ++ [m]).length : Int)) < L := by
              simp only [List.length_append, List.length_cons, List.length_nil]
              push_cast
              omega
            have hge2 : L ≤ ((acc ++ [m]).length : Int) +
                ((rest.filter (fun x => x.photo)).length : Int) := by
              simp only [List.length_append, List.length_cons, List.length_nil] at hge ⊢
              push_cast at hge ⊢
              omega
            have hstep : fetchGo L (FetchEvent.msg m :: rest.map FetchEvent.msg) acc =
                fetchGo L (rest.map FetchEvent.msg) (acc ++ [m]) := by
              simp [fetchGo, hm, hbreak]
            rw [List.map_cons, hstep, ih (acc ++ [m]) hacc2 hge2]
            have htake : (L - (acc.length : Int)).toNat =
                ((L - ((acc ++ [m]).length : Int)).toNat) + 1 := by
              simp only [List.length_append, List.length_cons, List.length_nil]
              push_cast
              omega
            rw [htake]
            simp [List.take_succ_cons]

/-! Claim theorems. -/

/-- C10: the OCR step is total over its byte-string input: for every
reader and every image byte string, `perform_ocr` returns a string
(the success value of the attempted pipeline), and every internal
failure is caught and mapped to the empty string. -/
theorem perform_ocr_total (r : Reader) (b : List Nat) :
    ocrBody r b = Except.ok (perform_ocr r b) ∨
      ((∃ e, ocrBody r b = Except.error e) ∧ perform_ocr r b = "") := by
  cases h : ocrBody r b with
  | ok s =>
      left
      simp [perform_ocr, h]
  | error e =>
      right
      exact ⟨⟨e, rfl⟩, by simp [perform_ocr, h]⟩

/-- C4: for a message whose image bytes download successfully, a
decode failure or an internal OCR engine failure is absorbed and the
row is still emitted with empty extracted text, rather than the
message being skipped. -/
theorem ocr_failure_emits_empty_row (u : Option String) (r : Reader) (m : Message)
    (b : List Nat) (hd : m.download = DownloadResult.bytes b) (hb : ¬ b.isEmpty)
    (hf : ∃ e, ocrBody r b = Except.error e) :
    buildRow u r m = some { messageId := m.id, date := strftimeYmdHms m.date,
                            imageLink := messageLink u m.id, extractedText := "" } := by
  obtain ⟨e, he⟩ := hf
  simp [buildRow, hd, hb, perform_ocr, he]

/-- Witness for C4 at a concrete message and a reader whose
normalisation fails. -/
theorem ocr_failure_emits_empty_row_witness :
    msg1.download = DownloadResult.bytes [1, 2] ∧ ¬ ([1, 2] : List Nat).isEmpty ∧
      (∃ e, ocrBody rdrFail [1, 2] = Except.error e) ∧
      buildRow (some "grp") rdrFail msg1 =
        some { messageId := 12, date := strftimeYmdHms dt1,
               imageLink := messageLink (some "grp") 12, extractedText := "" } :=
  ⟨rfl, by decide, ⟨"cannot identify image file", rfl⟩,
    ocr_failure_emits_empty_row (some "grp") rdrFail msg1 [1, 2] rfl (by decide)
      ⟨"cannot identify image file", rfl⟩⟩

/-- C3: a message whose download raises or comes back empty produces
no row, and the rest of the batch is processed exactly as if that
message were absent: rows of messages before and after it are
unaffected. -/
theorem item_fault_isolated (u : Option String) (r : Reader) (pre post : List Message)
    (bad : Message)
    (h : (∃ e, bad.download = DownloadResult.fault e) ∨
      bad.download = DownloadResult.bytes []) :
    buildRow u r bad = none ∧
      processMessages u r (pre ++ bad :: post) =
        processMessages u r pre ++ processMessages u r post := by
  have hnone : buildRow u r bad = none := by
    rcases h with ⟨e, he⟩ | he
    · simp [buildRow, he]
    · simp [buildRow, he]
  refine ⟨hnone, ?_⟩
  simp [processMessages_eq_filterMap, List.filterMap_append, List.filterMap_cons, hnone]

/-- Witness for C3: a batch with a failing download in the middle
still yields the rows of the surrounding messages. -/
theorem item_fault_isolated_witness :
    ((∃ e, msgBadDl.download = DownloadResult.fault e) ∨
        msgBadDl.download = DownloadResult.bytes []) ∧
      buildRow (some "grp") rdrOk msgBadDl = none ∧
      processMessages (some "grp") rdrOk ([msg1] ++ msgBadDl :: [msg2]) =
        processMessages (some "grp") rdrOk [msg1] ++
          processMessages (some "grp") rdrOk [msg2] :=
  ⟨Or.inl ⟨"network", rfl⟩,
    item_fault_isolated (some "grp") rdrOk [msg1] [msg2] msgBadDl
      (Or.inl ⟨"network", rfl⟩)⟩

/-- C2: two successive merges starting from a nonexistent dataset
accumulate: the resulting rows are the concatenation of the two
batches in order, and the columns are those of the combined batch. -/
theorem merge_accumulates (rowsA rowsB : List Row) :
    append_to_excel (append_to_excel none rowsA) rowsB =
      some { columns := dfColumns (rowsA ++ rowsB), rows := rowsA ++ rowsB } := by
  have hcols : unionCols rowColumns rowColumns = rowColumns := by decide
  cases rowsA with
  | nil =>
      cases rowsB with
      | nil => rfl
      | cons b bs =>
          simp [append_to_excel, dfColumns, unionCols]
  | cons a as =>
      cases rowsB with
      | nil =>
          simp [append_to_excel, dfColumns, unionCols]
      | cons b bs =>
          simp only [append_to_excel, dfColumns, List.isEmpty_cons, List.cons_append,
            if_neg Bool.false_ne_true, hcols]

/-- C6: merging a nonempty batch into a nonexistent dataset creates a
dataset containing exactly those rows in order, with the four header
columns of the source dicts. -/
theorem merge_creates (rows : List Row) (h : rows ≠ []) :
    append_to_excel none rows = some { columns := rowColumns, rows := rows } := by
  cases rows with
  | nil => exact absurd rfl h
  | cons a as => simp [append_to_excel, dfColumns]

/-- A sample row for the persistence witnesses. -/
def row1 : Row :=
  { messageId := 12, date := "2024-05-03 10:20:30", imageLink := "",
    extractedText := "hello" }

/-- Witness for C6 at a concrete one-row batch. -/
theorem merge_creates_witness :
    ([row1] ≠ ([] : List Row)) ∧
      append_to_excel none [row1] = some { columns := rowColumns, rows := [row1] } :=
  ⟨by decide, merge_creates [row1] (by decide)⟩

/-- C1: with a positive limit, a reverse-chronologically ordered
source containing at least `L` qualifying (photo) messages yields
exactly the first `L` of them, still in reverse-chronological order;
a source with `K < L` qualifying messages yields all `K` of them
without fault. -/
theorem fetch_images_respects_limit (L : Nat) (msgs : List Message) (hL : 0 < L)
    (hsorted : msgs.Pairwise (fun a b => b.date.key ≤ a.date.key)) :
    (L ≤ (msgs.filter (fun m => m.photo)).length →
      fetch_images (msgs.map FetchEvent.msg) (L : Int) =
          FetchResult.ok ((msgs.filter (fun m => m.photo)).take L) ∧
        ((msgs.filter (fun m => m.photo)).take L).length = L ∧
        ((msgs.filter (fun m => m.photo)).take L).Pairwise
          (fun a b => b.date.key ≤ a.date.key)) ∧
    ((msgs.filter (fun m => m.photo)).length < L →
      fetch_images (msgs.map FetchEvent.msg) (L : Int) =
        FetchResult.ok (msgs.filter (fun m => m.photo))) := by
  constructor
  · intro hge
    refine ⟨?_, ?_, ?_⟩
    · have h1 : ((([] : List Message).length : Int)) < (L : Int) := by
        simp only [List.length_nil]
        exact_mod_cast hL
      have h2 : (L : Int) ≤ (([] : List Message).length : Int) +
          ((msgs.filter (fun m => m.photo)).length : Int) := by
        simp only [List.length_nil]
        push_cast
        omega
      have hr := fetchGo_pure_reach (L : Int) msgs [] h1 h2
      simpa [fetch_images] using hr
    · simp only [List.length_take]
      omega
    · exact List.Pairwise.sublist
        ((List.take_sublist _ _).trans (List.filter_sublist _)) hsorted
  · intro hlt
    have h0 : ((([] : List Message).length : Int)) +
        ((msgs.filter (fun m => m.photo)).length : Int) < (L : Int) := by
      simp only [List.length_nil]
      push_cast
      omega
    have hr := fetchGo_msgs_append (L : Int) msgs [] [] h0
    simp only [List.append_nil, List.nil_append] at hr
    simpa [fetch_images, fetchGo] using hr

/-- Witness for C1 at a three-photo source and limit 2: the two most
recent photo messages come back, in order. -/
theorem fetch_images_respects_limit_witness :
    0 < 2 ∧
      ([msg1, msg2, msg3].Pairwise (fun a b => b.date.key ≤ a.date.key)) ∧
      2 ≤ ([msg1, msg2, msg3].filter (fun m => m.photo)).length ∧
      (fetch_images ([msg1, msg2, msg3].map FetchEvent.msg) ((2 : Nat) : Int) =
          FetchResult.ok (([msg1, msg2, msg3].filter (fun m => m.photo)).take 2) ∧
        (([msg1, msg2, msg3].filter (fun m => m.photo)).take 2).length = 2 ∧
        (([msg1, msg2, msg3].filter (fun m => m.photo)).take 2).Pairwise
          (fun a b => b.date.key ≤ a.date.key)) :=
  ⟨by decide, by decide, by decide,
    (fetch_images_respects_limit 2 [msg1, msg2, msg3] (by decide) (by decide)).1
      (by decide)⟩

/-- C9: with a non-positive limit and at least one qualifying message
in the source, the fetcher returns exactly the first qualifying
message, because the length check only runs after an append. -/
theorem fetch_images_nonpositive_limit (L : Int) (msgs : List Message) (m : Message)
    (hL : L ≤ 0) (hfind : msgs.find? (fun x => x.photo) = some m) :
    fetch_images (msgs.map FetchEvent.msg) L = FetchResult.ok [m] := by
  induction msgs with
  | nil => simp at hfind
  | cons x rest ih =>
      cases hx : x.photo with
      | true =>
          have hm : m = x := by
            rw [List.find?_cons_of_pos _ hx] at hfind
            exact (Option.some.inj hfind).symm
          subst hm
          have hbreak : L ≤ ((([] : List Message).length : Int)) + 1 := by
            simp only [List.length_nil]
            omega
          simp only [fetch_images, List.map_cons, fetchGo, hx, if_true]
          rw [if_pos hbreak]
          simp
      | false =>
          rw [List.find?_cons_of_neg _ (by simp [hx])] at hfind
          have hr := ih hfind
          simpa [fetch_images, fetchGo, hx] using hr

/-- Witness for C9: limit 0 on a source whose second message is the
first photo message returns exactly that message. -/
theorem fetch_images_nonpositive_limit_witness :
    ((0 : Int) ≤ 0) ∧
      ([msgNoPhoto, msg1].find? (fun x => x.photo) = some msg1) ∧
      fetch_images ([msgNoPhoto, msg1].map FetchEvent.msg) 0 = FetchResult.ok [msg1] :=
  ⟨by decide, by decide,
    fetch_images_nonpositive_limit 0 [msgNoPhoto, msg1] msg1 (by decide) (by decide)⟩

/-- C5: a FloodWaitError raised before the limit is reached aborts the
run with a rate-limit fault carrying the wait duration supplied by the
source, and the dataset is left untouched: zero rows are written. -/
theorem rate_limit_aborts (L : Int) (pre : List Message) (rest : List FetchEvent)
    (s : Nat) (u : Option String) (r : Reader) (fs : Option Dataset)
    (h : ((pre.filter (fun m => m.photo)).length : Int) < L) :
    mainRun (pre.map FetchEvent.msg ++ FetchEvent.floodWait s :: rest) L u r fs =
      (fs, RunOutcome.fetchAborted (Fault.rateLimited s)) := by
  have h0 : ((([] : List Message).length : Int)) +
      ((pre.filter (fun m => m.photo)).length : Int) < L := by
    simpa using h
  have hfetch : fetch_images (pre.map FetchEvent.msg ++ FetchEvent.floodWait s :: rest) L =
      FetchResult.rateLimited s := by
    unfold fetch_images
    rw [fetchGo_msgs_append L pre (FetchEvent.floodWait s :: rest) [] h0]
    rfl
  simp [mainRun, hfetch]

/-- Witness for C5: a flood wait of 60 seconds after one of five
requested photos aborts with that duration; the empty filesystem is
unchanged. -/
theorem rate_limit_aborts_witness :
    ((([msg1].filter (fun m => m.photo)).length : Int) < 5) ∧
      mainRun ([msg1].map FetchEvent.msg ++ FetchEvent.floodWait 60 :: []) 5 (some "grp")
          rdrOk none =
        (none, RunOutcome.fetchAborted (Fault.rateLimited 60)) :=
  ⟨by decide, rate_limit_aborts 5 [msg1] [] 60 (some "grp") rdrOk none (by decide)⟩

/-- C7: when fetching succeeded with a nonempty message list but no
message produced a row, the persistence step is skipped entirely: the
filesystem (in particular a nonexistent dataset) is unchanged and the
run completes without fault. -/
theorem empty_batch_noop (stream : List FetchEvent) (L : Int) (u : Option String)
    (r : Reader) (fs : Option Dataset) (msgs : List Message)
    (hfetch : fetch_images stream L = FetchResult.ok msgs) (hne : msgs ≠ [])
    (hrows : processMessages u r msgs = []) :
    mainRun stream L u r fs = (fs, RunOutcome.completed []) := by
  unfold mainRun
  rw [hfetch]
  have hie : msgs.isEmpty = false := by
    cases msgs with
    | nil => exact absurd rfl hne
    | cons a as => rfl
  simp [hie, hrows]

/-- Witness for C7: one fetched message whose download faults yields
an empty batch; the nonexistent dataset stays nonexistent and the run
completes. -/
theorem empty_batch_noop_witness :
    fetch_images [FetchEvent.msg msgBadDl] 6 = FetchResult.ok [msgBadDl] ∧
      ([msgBadDl] ≠ ([] : List Message)) ∧
      processMessages (some "grp") rdrOk [msgBadDl] = [] ∧
      mainRun [FetchEvent.msg msgBadDl] 6 (some "grp") rdrOk none =
        (none, RunOutcome.completed []) :=
  ⟨by decide, by decide, by decide,
    empty_batch_noop [FetchEvent.msg msgBadDl] 6 (some "grp") rdrOk none [msgBadDl]
      (by decide) (by decide) (by decide)⟩

/-- C8: a successfully processed message yields a row whose id is the
message id, whose timestamp is the zero-padded
"YYYY-MM-DD HH:MM:SS" rendering of the message date, whose text is
the OCR fragments joined by single blank spaces in engine order, and
whose link is composed from the public handle and the id when a
truthy handle exists, and empty otherwise. -/
theorem row_contents (u : Option String) (r : Reader) (m : Message) (b temp : List Nat)
    (frags : List String) (hd : m.download = DownloadResult.bytes b) (hb : ¬ b.isEmpty)
    (hn : r.normalize b = Except.ok temp) (ht : r.readtext temp = Except.ok frags) :
    buildRow u r m =
        some { messageId := m.id,
               date := pad 4 m.date.year ++ "-" ++ pad 2 m.date.month ++ "-" ++
                 pad 2 m.date.day ++ " " ++ pad 2 m.date.hour ++ ":" ++
                 pad 2 m.date.minute ++ ":" ++ pad 2 m.date.second,
               imageLink := messageLink u m.id,
               extractedText := String.intercalate " " frags } ∧
      (∀ h, u = some h → ¬ h.isEmpty →
        messageLink u m.id = "https://t.me/" ++ h ++ "/" ++ toString m.id) ∧
      ((u = none ∨ u = some "") → messageLink u m.id = "") := by
  refine ⟨?_, ?_, ?_⟩
  · simp [buildRow, hd, hb, perform_ocr, ocrBody, hn, ht, strftimeYmdHms]
  · rintro h rfl hh
    simp [messageLink, hh]
  · rintro (rfl | rfl) <;> rfl

/-- Witness for C8: a concrete message processed with a succeeding
reader yields the fully rendered row. -/
theorem row_contents_witness :
    msg1.download = DownloadResult.bytes [1, 2] ∧ ¬ ([1, 2] : List Nat).isEmpty ∧
      rdrOk.normalize [1, 2] = Except.ok [1, 2] ∧
      rdrOk.readtext [1, 2] = Except.ok ["hello", "world"] ∧
      buildRow (some "grp") rdrOk msg1 =
        some { messageId := 12, date := "2024-05-03 10:20:30",
               imageLink := "https://t.me/grp/12", extractedText := "hello world" } :=
  ⟨rfl, by decide, rfl, rfl,
    ((row_contents (some "grp") rdrOk msg1 [1, 2] [1, 2] ["hello", "world"] rfl
      (by decide) rfl rfl).1).trans (by decide)⟩
